import Mathlib

/-!
Verification development for the farming-game world simulation
(TileMap / crop state machine / item drops).

The TypeScript source is embedded shallowly:
* JS `number` is modelled as `ℚ` (the claims under scrutiny are about
  control flow, comparisons and clamping, not float rounding);
* optional record fields (`growth?`, `watered?`, ...) are `Option _`,
  with JS truthiness of `undefined`/`0`/`""` made explicit;
* `Date.now()` is an explicit `now : ℚ` parameter (millisecond clock);
* `Math.random()` is an explicit stream of rationals threaded through
  the world generator, and `Math.sin` an explicit function parameter;
* in-place mutation becomes functional update of a `TileMap` record.
-/

namespace Farm

/-- Truthiness of an optional JS boolean: `undefined` and `false` are falsy. -/
def jsBool (o : Option Bool) : Bool := o.getD false

/-- Truthiness of an optional JS number: `undefined` and `0` are falsy. -/
def jsNum (o : Option ℚ) : Bool :=
  match o with
  | none => false
  | some q => if q = 0 then false else true

/-- Truthiness of an optional JS string: `undefined` and the empty string are falsy. -/
def jsStr (o : Option String) : Bool :=
  match o with
  | none => false
  | some s => if s = "" then false else true

/-- The `TileType` enum of the source. -/
inductive TileType where
  | Grass
  | Dirt
  | Stone
  | Water
  | TilledDirt
  | PlantedDirt
  | Tree
deriving DecidableEq

/-- The `Tile` interface: `type` and `solid` are mandatory, every other
field is optional (JS `undefined` is `none`). -/
structure Tile where
  type : TileType
  solid : Bool
  tilled : Option Bool := none
  tilledTime : Option ℚ := none
  planted : Option Bool := none
  growth : Option ℚ := none
  watered : Option Bool := none
  lastWatered : Option ℚ := none
  cropType : Option String := none
  treeHealth : Option ℚ := none
deriving DecidableEq

/-- The JS expression `tile.cropType || 'carrot'`: the stored crop type
unless it is undefined or empty. -/
def cropTypeOrCarrot (o : Option String) : String :=
  match o with
  | some c => if c = "" then "carrot" else c
  | none => "carrot"

/-- A plain grass tile, `{ type: Grass, solid: false }`. -/
def grassTile : Tile := { type := TileType.Grass, solid := false }

/-- The tile written by a successful harvest:
`{ type: TilledDirt, solid: false, tilled: true, watered: false }`.
Note that `tilledTime` is NOT set. -/
def harvestedTile : Tile :=
  { type := TileType.TilledDirt, solid := false, tilled := some true,
    watered := some false }

/-- The `TileMap` class state: the row-major `tiles` array
(`tiles[y][x]`), the grid dimensions and the tile size. -/
structure TileMap where
  tiles : List (List Tile)
  width : ℤ
  height : ℤ
  tileSize : ℚ
deriving DecidableEq

/-- Raw array write `tiles[tileY][tileX] = t` (no-op outside the arrays,
which the source only ever does behind a bounds check). -/
def setCell (tiles : List (List Tile)) (tileX tileY : ℕ) (t : Tile) :
    List (List Tile) :=
  match tiles.get? tileY with
  | none => tiles
  | some row => tiles.set tileY (row.set tileX t)

namespace TileMap

/-- Method `getTileAt(tileX, tileY)`: bounds check, then array read. -/
def getTileAt (m : TileMap) (tileX tileY : ℤ) : Option Tile :=
  if tileX < 0 ∨ m.width ≤ tileX ∨ tileY < 0 ∨ m.height ≤ tileY then
    none
  else
    (m.tiles.get? tileY.toNat).bind (fun row => row.get? tileX.toNat)

/-- Method `getTile(x, y)`: floor-divide world coordinates by `tileSize`,
then the same bounds check and array read. -/
def getTile (m : TileMap) (x y : ℚ) : Option Tile :=
  m.getTileAt ⌊x / m.tileSize⌋ ⌊y / m.tileSize⌋

/-- Method `isSolid(x, y)`: the tile's `solid` flag, or `true` when
`getTile` returns the null sentinel. -/
def isSolid (m : TileMap) (x y : ℚ) : Bool :=
  match m.getTile x y with
  | some t => t.solid
  | none => true

/-- Method `tillTile(x, y)`: legal from Grass or Dirt; writes a fresh
TilledDirt tile with `tilledTime = Date.now()`. Returns the updated map
and the boolean result. -/
def tillTile (m : TileMap) (x y now : ℚ) : TileMap × Bool :=
  let tileX := ⌊x / m.tileSize⌋
  let tileY := ⌊y / m.tileSize⌋
  match m.getTileAt tileX tileY with
  | some t =>
    if t.type = TileType.Grass ∨ t.type = TileType.Dirt then
      let t1 : Tile := { type := TileType.TilledDirt, solid := false,
                         tilled := some true, tilledTime := some now }
      ({ m with tiles := setCell m.tiles tileX.toNat tileY.toNat t1 }, true)
    else (m, false)
  | none => (m, false)

/-- Method `plantSeed(x, y, cropType)`: legal on TilledDirt with falsy
`planted`; writes a fresh PlantedDirt tile with `growth = 0`,
`watered = false` and the given crop type. -/
def plantSeed (m : TileMap) (x y : ℚ) (cropType : String) : TileMap × Bool :=
  let tileX := ⌊x / m.tileSize⌋
  let tileY := ⌊y / m.tileSize⌋
  match m.getTileAt tileX tileY with
  | some t =>
    if t.type = TileType.TilledDirt ∧ ¬ jsBool t.planted then
      let t1 : Tile := { type := TileType.PlantedDirt, solid := false,
                         tilled := some true, planted := some true,
                         growth := some 0, watered := some false,
                         cropType := some cropType }
      ({ m with tiles := setCell m.tiles tileX.toNat tileY.toNat t1 }, true)
    else (m, false)
  | none => (m, false)

/-- Method `waterTile(x, y)`: legal on TilledDirt or PlantedDirt; sets
`watered = true` and `lastWatered = Date.now()` in place. -/
def waterTile (m : TileMap) (x y now : ℚ) : TileMap × Bool :=
  let tileX := ⌊x / m.tileSize⌋
  let tileY := ⌊y / m.tileSize⌋
  match m.getTileAt tileX tileY with
  | some t =>
    if t.type = TileType.TilledDirt ∨ t.type = TileType.PlantedDirt then
      let t1 : Tile := { t with watered := some true, lastWatered := some now }
      ({ m with tiles := setCell m.tiles tileX.toNat tileY.toNat t1 }, true)
    else (m, false)
  | none => (m, false)

/-- Method `harvestCrop(x, y)`: legal on PlantedDirt when `growth` is
truthy and `≥ 1`; returns `cropType || 'carrot'` and resets the cell to
`harvestedTile`; otherwise returns `null` and changes nothing. -/
def harvestCrop (m : TileMap) (x y : ℚ) : TileMap × Option String :=
  let tileX := ⌊x / m.tileSize⌋
  let tileY := ⌊y / m.tileSize⌋
  match m.getTileAt tileX tileY with
  | some t =>
    if jsNum t.growth ∧ 1 ≤ t.growth.getD 0 ∧ t.type = TileType.PlantedDirt then
      ({ m with tiles := setCell m.tiles tileX.toNat tileY.toNat harvestedTile },
       some (cropTypeOrCarrot t.cropType))
    else (m, none)
  | none => (m, none)

/-- Method `chopTree(x, y)`: legal on Tree. With truthy `treeHealth > 1`
it decrements the health in place and returns `false` ("not felled");
otherwise it replaces the cell with plain grass and returns `true`
("felled"). Any non-Tree tile (or out-of-bounds query) returns `false`
unchanged. -/
def chopTree (m : TileMap) (x y : ℚ) : TileMap × Bool :=
  let tileX := ⌊x / m.tileSize⌋
  let tileY := ⌊y / m.tileSize⌋
  match m.getTileAt tileX tileY with
  | some t =>
    if t.type = TileType.Tree then
      if jsNum t.treeHealth ∧ 1 < t.treeHealth.getD 0 then
        let t1 : Tile := { t with treeHealth := some (t.treeHealth.getD 0 - 1) }
        ({ m with tiles := setCell m.tiles tileX.toNat tileY.toNat t1 }, false)
      else
        ({ m with tiles := setCell m.tiles tileX.toNat tileY.toNat grassTile },
         true)
    else (m, false)
  | none => (m, false)

end TileMap

/-- Per-cell body of `updateCrops`: grows watered planted crops
(clamped at 1 by `Math.min`), dries them out strictly more than 5000 ms
after `lastWatered`, and reverts unplanted tilled dirt to grass strictly
more than 30000 ms after `tilledTime`. The dry-out check sits INSIDE the
`tile.watered` branch of the PlantedDirt case, exactly as in the source. -/
def updateTile (currentTime deltaTime : ℚ) (t : Tile) : Tile :=
  if t.type = TileType.PlantedDirt ∧ jsBool t.planted ∧ t.growth.isSome then
    if jsBool t.watered then
      let t1 := { t with growth := some (min 1 (t.growth.getD 0 + deltaTime * (1/10))) }
      if jsNum t1.lastWatered ∧ 5000 < currentTime - t1.lastWatered.getD 0 then
        { t1 with watered := some false }
      else t1
    else t
  else if t.type = TileType.TilledDirt ∧ ¬ jsBool t.planted then
    if jsNum t.tilledTime ∧ 30000 < currentTime - t.tilledTime.getD 0 then
      grassTile
    else t
  else t

/-- Method `updateCrops(deltaTime)`: one full-grid sweep applying
`updateTile` to each cell. The source's index loop over
`y < height, x < width` is rendered as a pointwise map over the stored
rows, which visits the same cells on every grid of the constructed
shape. -/
def TileMap.updateCrops (m : TileMap) (deltaTime now : ℚ) : TileMap :=
  { m with tiles := m.tiles.map (fun row => row.map (updateTile now deltaTime)) }

/-! World generation (`generateMap` and its four passes). `Math.random()`
is modelled as an explicit stream of rationals consumed left to right,
and `Math.sin` as an explicit function parameter. An array access that
JS could only reach with a random value outside `[0,1)` is modelled as a
skip. -/

/-- A deterministic source standing for successive `Math.random()` calls. -/
structure Rng where
  stream : ℕ → ℚ
  idx : ℕ

/-- Draw the next random value. -/
def Rng.next (r : Rng) : ℚ × Rng := (r.stream r.idx, ⟨r.stream, r.idx + 1⟩)

/-- The inclusive integer range `lo..hi` of a JS for-loop (empty when `hi < lo`). -/
def intRange (lo hi : ℤ) : List ℤ :=
  (List.range (hi + 1 - lo).toNat).map (fun i => lo + i)

/-- Raw array read `tiles[y][x]` with integer indices. -/
def rawGet (tiles : List (List Tile)) (x y : ℤ) : Option Tile :=
  if x < 0 ∨ y < 0 then none
  else (tiles.get? y.toNat).bind (fun row => row.get? x.toNat)

/-- A river water tile, `{ type: Water, solid: true }`. -/
def riverTile : Tile := { type := TileType.Water, solid := true }

/-- A stone tile, `{ type: Stone, solid: true }`. -/
def stoneTile : Tile := { type := TileType.Stone, solid := true }

/-- A dirt tile, `{ type: Dirt, solid: false }`. -/
def dirtTile : Tile := { type := TileType.Dirt, solid := false }

/-- A freshly placed tree, `{ type: Tree, solid: true, treeHealth: 3 }`. -/
def treeTile : Tile :=
  { type := TileType.Tree, solid := true, treeHealth := some 3 }

/-- Pass `generateRiver`: a sine-perturbed horizontal band of water of
half-width 3 around row `height / 2`, overwriting unconditionally. -/
def generateRiver (sine : ℚ → ℚ) (width height : ℤ)
    (tiles : List (List Tile)) : List (List Tile) :=
  let riverY : ℤ := ⌊(height : ℚ) / 2⌋
  let riverWidth : ℤ := 3
  (intRange 0 (width - 1)).foldl (fun (ts : List (List Tile)) (x : ℤ) =>
    let offset := sine ((x : ℚ) * (3/10)) * 2
    (intRange (-riverWidth) riverWidth).foldl (fun ts (dy : ℤ) =>
      let y : ℤ := ⌊(riverY : ℚ) + offset + (dy : ℚ)⌋
      if 0 ≤ y ∧ y < height then setCell ts x.toNat y.toNat riverTile
      else ts) ts) tiles

/-- Pass `generateStones`: `floor(width * height * 0.02)` random cells,
each converted to Stone only when currently Grass (no retry). -/
def generateStones (width height : ℤ) (st : List (List Tile) × Rng) :
    List (List Tile) × Rng :=
  let stoneCount := Int.toNat ⌊(width : ℚ) * (height : ℚ) * (2/100)⌋
  (List.range stoneCount).foldl (fun (st : List (List Tile) × Rng) _ =>
    let (r1, rng1) := st.2.next
    let x : ℤ := ⌊r1 * (width : ℚ)⌋
    let (r2, rng2) := rng1.next
    let y : ℤ := ⌊r2 * (height : ℚ)⌋
    match rawGet st.1 x y with
    | some t =>
      if t.type = TileType.Grass then (setCell st.1 x.toNat y.toNat stoneTile, rng2)
      else (st.1, rng2)
    | none => (st.1, rng2)) st

/-- Pass `generateDirtPatches`: 5 random circular patches of radius 2–4,
converting Grass cells inside the circle to Dirt. -/
def generateDirtPatches (width height : ℤ) (st : List (List Tile) × Rng) :
    List (List Tile) × Rng :=
  let patchCount := 5
  (List.range patchCount).foldl (fun (st : List (List Tile) × Rng) _ =>
    let (r1, rng1) := st.2.next
    let centerX : ℤ := ⌊r1 * (width : ℚ)⌋
    let (r2, rng2) := rng1.next
    let centerY : ℤ := ⌊r2 * (height : ℚ)⌋
    let (r3, rng3) := rng2.next
    let radius : ℤ := 2 + ⌊r3 * 3⌋
    let tiles2 := (intRange (-radius) radius).foldl (fun (ts : List (List Tile)) (dy : ℤ) =>
      (intRange (-radius) radius).foldl (fun ts (dx : ℤ) =>
        if dx * dx + dy * dy ≤ radius * radius then
          let x := centerX + dx
          let y := centerY + dy
          if 0 ≤ x ∧ x < width ∧ 0 ≤ y ∧ y < height then
            match rawGet ts x y with
            | some t =>
              if t.type = TileType.Grass then setCell ts x.toNat y.toNat dirtTile
              else ts
            | none => ts
          else ts
        else ts) ts) st.1
    (tiles2, rng3)) st

/-- The eight-neighbour (plus centre) scan of `generateTrees`, checking
for an in-bounds Tree cell around `(x, y)`. -/
def hasNearbyTree (tiles : List (List Tile)) (width height x y : ℤ) : Bool :=
  (intRange (-1) 1).any (fun (dy : ℤ) =>
    (intRange (-1) 1).any (fun (dx : ℤ) =>
      let checkX := x + dx
      let checkY := y + dy
      if 0 ≤ checkX ∧ checkX < width ∧ 0 ≤ checkY ∧ checkY < height then
        match rawGet tiles checkX checkY with
        | some t => t.type = TileType.Tree
        | none => false
      else false))

/-- Pass `generateTrees`: `floor(width * height * 0.03)` random cells,
each planted with a Tree only when currently Grass and with no Tree
among the neighbouring cells (no retry). -/
def generateTrees (width height : ℤ) (st : List (List Tile) × Rng) :
    List (List Tile) × Rng :=
  let treeCount := Int.toNat ⌊(width : ℚ) * (height : ℚ) * (3/100)⌋
  (List.range treeCount).foldl (fun (st : List (List Tile) × Rng) _ =>
    let (r1, rng1) := st.2.next
    let x : ℤ := ⌊r1 * (width : ℚ)⌋
    let (r2, rng2) := rng1.next
    let y : ℤ := ⌊r2 * (height : ℚ)⌋
    match rawGet st.1 x y with
    | some t =>
      if t.type = TileType.Grass then
        if hasNearbyTree st.1 width height x y then (st.1, rng2)
        else (setCell st.1 x.toNat y.toNat treeTile, rng2)
      else (st.1, rng2)
    | none => (st.1, rng2)) st

/-- Method `generateMap`: fill with grass, then river, stones, dirt
patches and trees, in that order. -/
def generateMap (width height : ℤ) (sine : ℚ → ℚ) (rng : Rng) :
    List (List Tile) × Rng :=
  let tiles := List.replicate height.toNat (List.replicate width.toNat grassTile)
  let tiles := generateRiver sine width height tiles
  let st := generateStones width height (tiles, rng)
  let st := generateDirtPatches width height st
  generateTrees width height st

/-- The `TileMap` constructor: records the dimensions and tile size and
runs `generateMap`. There is no validation of `width` or `height`. -/
def TileMap.create (width height : ℤ) (tileSize : ℚ) (sine : ℚ → ℚ)
    (rng : Rng) : TileMap :=
  { tiles := (generateMap width height sine rng).1,
    width := width, height := height, tileSize := tileSize }

/-! The `ItemDropManager` of ItemDrop.ts. The JS `Map<number, ItemDrop>`
is modelled as an insertion-ordered association list. -/

/-- A 2D vector (utils/math.ts `Vec2`). -/
structure Vec2 where
  x : ℚ
  y : ℚ
deriving DecidableEq

/-- The `ItemDrop` interface. -/
structure ItemDrop where
  id : ℕ
  position : Vec2
  itemType : String
  quantity : ℚ
  bobOffset : ℚ
  bobTime : ℚ
deriving DecidableEq

/-- The `ItemDropManager` state: the id-keyed drop map (insertion
ordered) and the monotone id counter. -/
structure ItemDropManager where
  drops : List (ℕ × ItemDrop)
  nextId : ℕ
deriving DecidableEq

namespace ItemDropManager

/-- The manager's initial state: empty map, `nextId = 1`. -/
def empty : ItemDropManager := { drops := [], nextId := 1 }

/-- Method `createDrop(x, y, itemType, quantity)`: inserts a fresh drop
keyed by `nextId` and bumps the counter. The sampled starting phase
`Math.random() * Math.PI * 2` is passed in as `phase`. -/
def createDrop (mgr : ItemDropManager) (x y : ℚ) (itemType : String)
    (quantity phase : ℚ) : ItemDropManager :=
  let drop : ItemDrop :=
    { id := mgr.nextId, position := ⟨x, y⟩, itemType := itemType,
      quantity := quantity, bobOffset := 0, bobTime := phase }
  { drops := mgr.drops ++ [(drop.id, drop)], nextId := mgr.nextId + 1 }

/-- Method `update(deltaTime)`: advances every drop's bob phase and
recomputes the sinusoidal bob offset (`Math.sin` passed in as `sine`). -/
def update (mgr : ItemDropManager) (deltaTime : ℚ) (sine : ℚ → ℚ) :
    ItemDropManager :=
  { mgr with drops := mgr.drops.map (fun p =>
      let t := p.2.bobTime + deltaTime * 3
      (p.1, { p.2 with bobTime := t, bobOffset := sine t * 2 })) }

/-- The squared-distance pickup test of `checkPickup`:
`distSq < pickupRadius ^ 2`, strictly. -/
def closeHit (playerX playerY pickupRadius : ℚ) (d : ItemDrop) : Bool :=
  let dx := d.position.x - playerX
  let dy := d.position.y - playerY
  if dx * dx + dy * dy < pickupRadius * pickupRadius then true else false

/-- Method `checkPickup(playerX, playerY, pickupRadius)`: first collects
every drop strictly within the radius (in map order), then removes the
collected ids, returning the batch and the new state. -/
def checkPickup (mgr : ItemDropManager) (playerX playerY pickupRadius : ℚ) :
    List ItemDrop × ItemDropManager :=
  let pickedUp :=
    (mgr.drops.filter (fun p => closeHit playerX playerY pickupRadius p.2)).map
      (fun p => p.2)
  let remaining :=
    mgr.drops.filter (fun p => ¬ closeHit playerX playerY pickupRadius p.2)
  (pickedUp, { mgr with drops := remaining })

end ItemDropManager

/-! Operation sequences, for the temporal and invariant claims. -/

/-- One externally triggerable TileMap operation. -/
inductive Op where
  | till (x y now : ℚ)
  | plant (x y : ℚ) (crop : String)
  | water (x y now : ℚ)
  | harvest (x y : ℚ)
  | chop (x y : ℚ)
  | update (deltaTime now : ℚ)

/-- Apply one operation, keeping the resulting map. -/
def applyOp (m : TileMap) : Op → TileMap
  | Op.till x y now => (m.tillTile x y now).1
  | Op.plant x y c => (m.plantSeed x y c).1
  | Op.water x y now => (m.waterTile x y now).1
  | Op.harvest x y => (m.harvestCrop x y).1
  | Op.chop x y => (m.chopTree x y).1
  | Op.update d now => m.updateCrops d now

/-- Apply a sequence of operations left to right. -/
def applyOps (m : TileMap) (ops : List Op) : TileMap := ops.foldl applyOp m

/-- An operation's tick delta is non-negative (vacuous for non-ticks):
the simulation only ever passes elapsed frame times to `updateCrops`. -/
def Op.deltaOk : Op → Bool
  | Op.update d _ => decide (0 ≤ d)
  | _ => true

/-- One externally triggerable ItemDropManager operation. -/
inductive DropOp where
  | create (x y : ℚ) (itemType : String) (quantity phase : ℚ)
  | tick (deltaTime : ℚ) (sine : ℚ → ℚ)
  | pickup (playerX playerY pickupRadius : ℚ)

/-- Apply one drop operation, keeping the resulting manager state. -/
def applyDropOp (mgr : ItemDropManager) : DropOp → ItemDropManager
  | DropOp.create x y it q ph => mgr.createDrop x y it q ph
  | DropOp.tick d s => mgr.update d s
  | DropOp.pickup px py r => (mgr.checkPickup px py r).2

/-- Apply a sequence of drop operations left to right. -/
def applyDropOps (mgr : ItemDropManager) (ops : List DropOp) : ItemDropManager :=
  ops.foldl applyDropOp mgr

/-- A grid whose stored rows agree with the recorded dimensions — the
shape every constructed map has. -/
def TileMap.wellFormed (m : TileMap) : Prop :=
  m.tiles.length = m.height.toNat ∧ ∀ row ∈ m.tiles, row.length = m.width.toNat

instance (m : TileMap) : Decidable m.wellFormed := by
  unfold TileMap.wellFormed; infer_instance

/-! Plumbing lemmas about cell reads and writes. -/

theorem setCell_read_back {tiles : List (List Tile)} {x y : ℕ} {row : List Tile}
    (t : Tile) (hrow : tiles.get? y = some row) (hx : x < row.length) :
    ((setCell tiles x y t).get? y).bind (fun r => r.get? x) = some t := by
  unfold setCell
  rw [hrow]
  have hy : y < tiles.length := (List.get?_eq_some.mp hrow).1
  rw [List.get?_set_eq_of_lt _ hy]
  simp only [Option.some_bind]
  exact List.get?_set_eq_of_lt t hx

theorem getTileAt_setCell {m : TileMap} {tileX tileY : ℤ} {t : Tile}
    (h : m.getTileAt tileX tileY = some t) (t' : Tile) :
    TileMap.getTileAt
      { m with tiles := setCell m.tiles tileX.toNat tileY.toNat t' }
      tileX tileY = some t' := by
  unfold TileMap.getTileAt at h ⊢
  by_cases hb : tileX < 0 ∨ m.width ≤ tileX ∨ tileY < 0 ∨ m.height ≤ tileY
  · simp [hb] at h
  · simp only [hb, if_false] at h ⊢
    cases hrow : m.tiles.get? tileY.toNat with
    | none => rw [hrow] at h; simp at h
    | some row =>
      rw [hrow] at h
      simp only [Option.some_bind] at h
      exact setCell_read_back t' hrow (List.get?_eq_some.mp h).1

theorem getTileAt_mem {m : TileMap} {tileX tileY : ℤ} {t : Tile}
    (h : m.getTileAt tileX tileY = some t) :
    ∃ row ∈ m.tiles, t ∈ row := by
  unfold TileMap.getTileAt at h
  by_cases hb : tileX < 0 ∨ m.width ≤ tileX ∨ tileY < 0 ∨ m.height ≤ tileY
  · simp [hb] at h
  · simp only [hb, if_false] at h
    cases hrow : m.tiles.get? tileY.toNat with
    | none => rw [hrow] at h; simp at h
    | some row =>
      rw [hrow] at h
      simp only [Option.some_bind] at h
      exact ⟨row, List.get?_mem hrow, List.get?_mem h⟩

theorem getTileAt_updateCrops (m : TileMap) (d now : ℚ) (tileX tileY : ℤ) :
    (m.updateCrops d now).getTileAt tileX tileY =
      (m.getTileAt tileX tileY).map (updateTile now d) := by
  unfold TileMap.updateCrops TileMap.getTileAt
  by_cases hb : tileX < 0 ∨ m.width ≤ tileX ∨ tileY < 0 ∨ m.height ≤ tileY
  · simp [hb]
  · simp only [hb, if_false]
    rw [List.get?_map]
    cases hrow : m.tiles.get? tileY.toNat with
    | none => simp
    | some row => simp [List.get?_map]

/-! The growth invariant: machinery for claim C3. -/

/-- The growth value of a tile, defaulting to 0 when undefined, lies in
the unit interval. -/
def growthOk (t : Tile) : Prop := 0 ≤ t.growth.getD 0 ∧ t.growth.getD 0 ≤ 1

instance (t : Tile) : Decidable (growthOk t) := by
  unfold growthOk; infer_instance

/-- Every tile stored in the map has its growth in the unit interval. -/
def growthInv (m : TileMap) : Prop := ∀ row ∈ m.tiles, ∀ t ∈ row, growthOk t

instance (m : TileMap) : Decidable (growthInv m) := by
  unfold growthInv; infer_instance

theorem growthInv_setCell {m : TileMap} (hm : growthInv m) {x y : ℕ} {t : Tile}
    (ht : growthOk t) : growthInv { m with tiles := setCell m.tiles x y t } := by
  intro row hrow u hu
  unfold setCell at hrow
  split at hrow
  · exact hm row hrow u hu
  · rename_i row0 hget
    rcases List.mem_or_eq_of_mem_set hrow with h1 | h2
    · exact hm row h1 u hu
    · subst h2
      rcases List.mem_or_eq_of_mem_set hu with h3 | h4
      · exact hm row0 (List.get?_mem hget) u h3
      · subst h4; exact ht

theorem growthOk_of_getTileAt {m : TileMap} (hm : growthInv m) {tileX tileY : ℤ}
    {t : Tile} (h : m.getTileAt tileX tileY = some t) : growthOk t := by
  rcases getTileAt_mem h with ⟨row, hrow, ht⟩
  exact hm row hrow t ht

theorem growthOk_updateTile {t : Tile} (ht : growthOk t) {d : ℚ} (hd : 0 ≤ d)
    (now : ℚ) : growthOk (updateTile now d t) := by
  have h0 : 0 ≤ min 1 (t.growth.getD 0 + d * (1/10)) :=
    le_min (by norm_num) (add_nonneg ht.1 (mul_nonneg hd (by norm_num)))
  have h1' : min 1 (t.growth.getD 0 + d * (1/10)) ≤ 1 := min_le_left 1 _
  simp only [updateTile]
  split_ifs with h1 h2 h3 h4 h5
  · exact ⟨h0, h1'⟩
  · exact ⟨h0, h1'⟩
  · exact ht
  · exact (by decide : growthOk grassTile)
  · exact ht
  · exact ht

theorem growthInv_updateCrops {m : TileMap} (hm : growthInv m) {d : ℚ}
    (hd : 0 ≤ d) (now : ℚ) : growthInv (m.updateCrops d now) := by
  intro row hrow u hu
  unfold TileMap.updateCrops at hrow
  simp only at hrow
  rcases List.mem_map.mp hrow with ⟨row0, hrow0, rfl⟩
  rcases List.mem_map.mp hu with ⟨u0, hu0, rfl⟩
  exact growthOk_updateTile (hm row0 hrow0 u0 hu0) hd now

theorem growthInv_applyOp {m : TileMap} (hm : growthInv m) {op : Op}
    (hop : op.deltaOk = true) : growthInv (applyOp m op) := by
  cases op with
  | till x y now =>
    unfold applyOp TileMap.tillTile
    cases hget : m.getTileAt ⌊x / m.tileSize⌋ ⌊y / m.tileSize⌋ with
    | none => simpa [hget] using hm
    | some t =>
      simp only [hget]
      split_ifs with hc
      · exact growthInv_setCell hm (by constructor <;> simp [growthOk])
      · exact hm
  | plant x y c =>
    unfold applyOp TileMap.plantSeed
    cases hget : m.getTileAt ⌊x / m.tileSize⌋ ⌊y / m.tileSize⌋ with
    | none => simpa [hget] using hm
    | some t =>
      simp only [hget]
      split_ifs with hc
      · exact growthInv_setCell hm (by constructor <;> simp [growthOk])
      · exact hm
  | water x y now =>
    unfold applyOp TileMap.waterTile
    cases hget : m.getTileAt ⌊x / m.tileSize⌋ ⌊y / m.tileSize⌋ with
    | none => simpa [hget] using hm
    | some t =>
      simp only [hget]
      split_ifs with hc
      · have htOk : growthOk t := growthOk_of_getTileAt hm hget
        exact growthInv_setCell hm htOk
      · exact hm
  | harvest x y =>
    unfold applyOp TileMap.harvestCrop
    cases hget : m.getTileAt ⌊x / m.tileSize⌋ ⌊y / m.tileSize⌋ with
    | none => simpa [hget] using hm
    | some t =>
      simp only [hget]
      split_ifs with hc
      · exact growthInv_setCell hm (by constructor <;> simp [growthOk, harvestedTile])
      · exact hm
  | chop x y =>
    unfold applyOp TileMap.chopTree
    cases hget : m.getTileAt ⌊x / m.tileSize⌋ ⌊y / m.tileSize⌋ with
    | none => simpa [hget] using hm
    | some t =>
      simp only [hget]
      split_ifs with hc1 hc2
      · have htOk : growthOk t := growthOk_of_getTileAt hm hget
        exact growthInv_setCell hm htOk
      · exact growthInv_setCell hm (by decide)
      · exact hm
  | update d now =>
    have hd : 0 ≤ d := by simpa [Op.deltaOk] using hop
    exact growthInv_updateCrops hm hd now

theorem growthInv_applyOps {m : TileMap} (hm : growthInv m) {ops : List Op}
    (hops : ∀ op ∈ ops, op.deltaOk = true) : growthInv (applyOps m ops) := by
  induction ops generalizing m with
  | nil => exact hm
  | cons op rest ih =>
    exact ih (growthInv_applyOp hm (hops op (by simp)))
      (fun o ho => hops o (by simp [ho]))

/-! Characterization lemmas for `harvestCrop` and `chopTree`. -/

theorem harvestCrop_success {m : TileMap} {x y : ℚ} {t : Tile} {g : ℚ}
    (hget : m.getTileAt ⌊x / m.tileSize⌋ ⌊y / m.tileSize⌋ = some t)
    (htype : t.type = TileType.PlantedDirt) (hg : t.growth = some g)
    (hge : 1 ≤ g) :
    m.harvestCrop x y =
      ({ m with tiles := setCell m.tiles (Int.toNat ⌊x / m.tileSize⌋) (Int.toNat ⌊y / m.tileSize⌋) harvestedTile },
       some (cropTypeOrCarrot t.cropType)) := by
  have hgne : g ≠ 0 := by
    intro h0; rw [h0] at hge; norm_num at hge
  have hcond : jsNum t.growth = true ∧ 1 ≤ t.growth.getD 0 ∧
      t.type = TileType.PlantedDirt := by
    refine ⟨?_, ?_, htype⟩
    · simp [jsNum, hg, hgne]
    · simp [hg, hge]
  simp only [TileMap.harvestCrop, hget, if_pos hcond]

theorem harvestCrop_fail {m : TileMap} {x y : ℚ}
    (h : (m.harvestCrop x y).2 = none) : (m.harvestCrop x y).1 = m := by
  unfold TileMap.harvestCrop at h ⊢
  cases hget : m.getTileAt ⌊x / m.tileSize⌋ ⌊y / m.tileSize⌋ with
  | none => simp [hget]
  | some t =>
    simp only [hget] at h ⊢
    split_ifs with hc
    · rw [if_pos hc] at h; simp at h
    · rfl

theorem harvestCrop_isSome {m : TileMap} {x y : ℚ} :
    ((m.harvestCrop x y).2.isSome = true ↔
      ∃ t, m.getTileAt ⌊x / m.tileSize⌋ ⌊y / m.tileSize⌋ = some t ∧
        t.type = TileType.PlantedDirt ∧ ∃ g, t.growth = some g ∧ 1 ≤ g) := by
  cases hget : m.getTileAt ⌊x / m.tileSize⌋ ⌊y / m.tileSize⌋ with
  | none => simp [TileMap.harvestCrop, hget]
  | some t =>
    by_cases hc : jsNum t.growth = true ∧ 1 ≤ t.growth.getD 0 ∧
        t.type = TileType.PlantedDirt
    · simp only [TileMap.harvestCrop, hget, if_pos hc]
      rcases hc with ⟨hjs, hge, htype⟩
      obtain ⟨g, hg⟩ : ∃ g, t.growth = some g := by
        cases hgr : t.growth with
        | none => rw [hgr] at hjs; simp [jsNum] at hjs
        | some g => exact ⟨g, rfl⟩
      rw [hg] at hge
      simp only [Option.getD_some] at hge
      simp only [Option.isSome_some, true_iff]
      exact ⟨t, rfl, htype, g, hg, hge⟩
    · simp only [TileMap.harvestCrop, hget, if_neg hc]
      refine iff_of_false (by simp) ?_
      rintro ⟨t', ht', htype', g, hg, hge⟩
      obtain rfl : t = t' := by injection ht'
      apply hc
      have hgne : g ≠ 0 := by
        intro h0; rw [h0] at hge; norm_num at hge
      exact ⟨by simp [jsNum, hg, hgne], by simp [hg, hge], htype'⟩

theorem chopTree_decrement {m : TileMap} {x y : ℚ} {t : Tile} {h : ℚ}
    (hget : m.getTileAt ⌊x / m.tileSize⌋ ⌊y / m.tileSize⌋ = some t)
    (htype : t.type = TileType.Tree) (hh : t.treeHealth = some h)
    (hh1 : 1 < h) :
    m.chopTree x y =
      ({ m with tiles := setCell m.tiles (Int.toNat ⌊x / m.tileSize⌋) (Int.toNat ⌊y / m.tileSize⌋) ({ t with treeHealth := some (h - 1) }) },
       false) := by
  have hne : h ≠ 0 := by intro h0; rw [h0] at hh1; norm_num at hh1
  have hcond : jsNum t.treeHealth = true ∧ 1 < t.treeHealth.getD 0 :=
    ⟨by simp [jsNum, hh, hne], by simp [hh, hh1]⟩
  simp only [TileMap.chopTree, hget, if_pos htype, if_pos hcond, hh,
    Option.getD_some]
  rw [if_pos (⟨by simp [jsNum, hne], hh1⟩ : jsNum (some h) = true ∧ 1 < h)]

theorem chopTree_fell {m : TileMap} {x y : ℚ} {t : Tile}
    (hget : m.getTileAt ⌊x / m.tileSize⌋ ⌊y / m.tileSize⌋ = some t)
    (htype : t.type = TileType.Tree)
    (hc : ¬ (jsNum t.treeHealth = true ∧ 1 < t.treeHealth.getD 0)) :
    m.chopTree x y =
      ({ m with tiles := setCell m.tiles (Int.toNat ⌊x / m.tileSize⌋) (Int.toNat ⌊y / m.tileSize⌋) grassTile }, true) := by
  simp only [TileMap.chopTree, hget, if_pos htype, if_neg hc]

theorem chopTree_nonTree {m : TileMap} {x y : ℚ} {t : Tile}
    (hget : m.getTileAt ⌊x / m.tileSize⌋ ⌊y / m.tileSize⌋ = some t)
    (htype : t.type ≠ TileType.Tree) :
    m.chopTree x y = (m, false) := by
  simp only [TileMap.chopTree, hget, if_neg htype]

/-- Evaluation helper: all witness scenarios target world coordinate 0,
whose tile index is 0 for every tile size. -/
theorem floor_zero_div (q : ℚ) : ⌊(0:ℚ) / q⌋ = 0 := by simp

/-- Failure form of `harvestCrop`: when the growth/type guard is false,
nothing happens and null is returned. -/
theorem harvestCrop_not_ripe {m : TileMap} {x y : ℚ} {t : Tile}
    (hget : m.getTileAt ⌊x / m.tileSize⌋ ⌊y / m.tileSize⌋ = some t)
    (hc : ¬ (jsNum t.growth = true ∧ 1 ≤ t.growth.getD 0 ∧
      t.type = TileType.PlantedDirt)) :
    m.harvestCrop x y = (m, none) := by
  simp only [TileMap.harvestCrop, hget, if_neg hc]

/-- C1: `harvestCrop(x, y)` succeeds exactly when the resolved tile is
PlantedDirt with a defined growth of at least 1 (the code's truthiness
guard on `growth` is subsumed by `growth ≥ 1`); on success — stated for
a tile whose stored crop type is truthy, as every planted tile's is —
it returns that crop type and resets the cell to TilledDirt with
`watered = false`; on failure (growth below the boundary included) it
returns null and leaves the map unchanged. -/
theorem C1_harvestCrop_spec (m : TileMap) (x y : ℚ) :
    ((m.harvestCrop x y).2.isSome = true ↔
      ∃ t, m.getTileAt ⌊x / m.tileSize⌋ ⌊y / m.tileSize⌋ = some t ∧
        t.type = TileType.PlantedDirt ∧ ∃ g, t.growth = some g ∧ 1 ≤ g) ∧
    (∀ t g c, m.getTileAt ⌊x / m.tileSize⌋ ⌊y / m.tileSize⌋ = some t →
      t.type = TileType.PlantedDirt → t.growth = some g → 1 ≤ g →
      t.cropType = some c → c ≠ "" →
      (m.harvestCrop x y).2 = some c ∧
      (m.harvestCrop x y).1.getTileAt ⌊x / m.tileSize⌋ ⌊y / m.tileSize⌋ =
        some harvestedTile) ∧
    ((m.harvestCrop x y).2 = none → (m.harvestCrop x y).1 = m) := by
  refine ⟨harvestCrop_isSome, ?_, harvestCrop_fail⟩
  intro t g c hget htype hg hge hcrop hcne
  have heq := harvestCrop_success hget htype hg hge
  rw [heq]
  constructor
  · simp [cropTypeOrCarrot, hcrop, hcne]
  · exact getTileAt_setCell hget harvestedTile

/-- A 1-by-1 map holding a ripe planted carrot (growth exactly 1). -/
def ripeCarrotMap : TileMap :=
  ⟨[[{ type := TileType.PlantedDirt, solid := false, tilled := some true,
       planted := some true, growth := some 1, watered := some false,
       cropType := some "carrot" }]], 1, 1, 32⟩

/-- A 1-by-1 map holding an almost-ripe planted carrot (growth 0.999). -/
def unripeCarrotMap : TileMap :=
  ⟨[[{ type := TileType.PlantedDirt, solid := false, tilled := some true,
       planted := some true, growth := some (999/1000), watered := some false,
       cropType := some "carrot" }]], 1, 1, 32⟩

/-- C1 witness: at growth exactly 1 the harvest returns "carrot" and
resets the cell; at growth 0.999 it returns null and changes nothing. -/
theorem C1_harvestCrop_witness :
    (ripeCarrotMap.harvestCrop 0 0).2 = some "carrot" ∧
    (ripeCarrotMap.harvestCrop 0 0).1.getTileAt 0 0 = some harvestedTile ∧
    (unripeCarrotMap.harvestCrop 0 0).2 = none ∧
    (unripeCarrotMap.harvestCrop 0 0).1 = unripeCarrotMap := by
  have h := (C1_harvestCrop_spec ripeCarrotMap 0 0).2.1
    { type := TileType.PlantedDirt, solid := false, tilled := some true,
      planted := some true, growth := some 1, watered := some false,
      cropType := some "carrot" }
    1 "carrot" (by rw [floor_zero_div]; rfl) rfl rfl (by norm_num) rfl
    (by decide)
  have hgetu : unripeCarrotMap.getTileAt ⌊(0:ℚ) / unripeCarrotMap.tileSize⌋
      ⌊(0:ℚ) / unripeCarrotMap.tileSize⌋ =
      some { type := TileType.PlantedDirt, solid := false, tilled := some true,
             planted := some true, growth := some (999/1000),
             watered := some false, cropType := some "carrot" } := by
    rw [floor_zero_div]; rfl
  have hu : unripeCarrotMap.harvestCrop 0 0 = (unripeCarrotMap, none) := by
    refine harvestCrop_not_ripe hgetu ?_
    rintro ⟨-, hge, -⟩
    simp only [Option.getD_some] at hge
    norm_num at hge
  refine ⟨h.1, ?_, by rw [hu], by rw [hu]⟩
  have h2 := h.2
  rw [floor_zero_div] at h2
  exact h2

/-- C2: on a Tree tile with `treeHealth = 3`, the first two chops return
false (not felled) and leave a Tree with health 2 then 1; the third chop
returns true and the cell leaves the Tree kind (it becomes plain grass);
chopping any non-Tree tile returns false and changes nothing. -/
theorem C2_chopTree_spec (m : TileMap) (x y : ℚ) (t : Tile)
    (hget : m.getTileAt ⌊x / m.tileSize⌋ ⌊y / m.tileSize⌋ = some t)
    (htype : t.type = TileType.Tree) (hh : t.treeHealth = some 3) :
    ((m.chopTree x y).2 = false ∧
     (m.chopTree x y).1.getTileAt ⌊x / m.tileSize⌋ ⌊y / m.tileSize⌋ =
       some { t with treeHealth := some 2 } ∧
     ((m.chopTree x y).1.chopTree x y).2 = false ∧
     ((m.chopTree x y).1.chopTree x y).1.getTileAt ⌊x / m.tileSize⌋ ⌊y / m.tileSize⌋ =
       some { t with treeHealth := some 1 } ∧
     (((m.chopTree x y).1.chopTree x y).1.chopTree x y).2 = true ∧
     (((m.chopTree x y).1.chopTree x y).1.chopTree x y).1.getTileAt
       ⌊x / m.tileSize⌋ ⌊y / m.tileSize⌋ = some grassTile) ∧
    (∀ (mAny : TileMap) (tAny : Tile),
      mAny.getTileAt ⌊x / mAny.tileSize⌋ ⌊y / mAny.tileSize⌋ = some tAny →
      tAny.type ≠ TileType.Tree → mAny.chopTree x y = (mAny, false)) := by
  have e32 : (3 : ℚ) - 1 = 2 := by norm_num
  have e21 : (2 : ℚ) - 1 = 1 := by norm_num
  have h1 := chopTree_decrement hget htype hh (by norm_num)
  rw [e32] at h1
  have hget1 := getTileAt_setCell hget ({ t with treeHealth := some 2 })
  have h2 := chopTree_decrement hget1 htype rfl (by norm_num)
  rw [e21] at h2
  have hget2 := getTileAt_setCell hget1 ({ t with treeHealth := some 1 })
  have h3 := chopTree_fell hget2 htype
    (by rintro ⟨-, hlt⟩; simp only [Option.getD_some] at hlt; norm_num at hlt)
  have hget3 := getTileAt_setCell hget2 grassTile
  refine ⟨⟨?_, ?_, ?_, ?_, ?_, ?_⟩,
    fun mAny tAny hgetA htypeA => chopTree_nonTree hgetA htypeA⟩
  · simp only [h1]
  · simp only [h1]; exact hget1
  · simp only [h1, h2]
  · simp only [h1, h2]; exact hget2
  · simp only [h1, h2, h3]
  · simp only [h1, h2, h3]; exact hget3

/-- A 1-by-1 map holding a fresh tree (health 3). -/
def freshTreeMap : TileMap :=
  ⟨[[{ type := TileType.Tree, solid := true, treeHealth := some 3 }]], 1, 1, 32⟩

/-- C2 witness: the three-chop scenario on the concrete fresh-tree map. -/
theorem C2_chopTree_witness :
    (freshTreeMap.chopTree 0 0).2 = false ∧
    (((freshTreeMap.chopTree 0 0).1.chopTree 0 0).1.chopTree 0 0).2 = true ∧
    (((freshTreeMap.chopTree 0 0).1.chopTree 0 0).1.chopTree 0 0).1.getTileAt
      0 0 = some grassTile := by
  have h := C2_chopTree_spec freshTreeMap 0 0
    { type := TileType.Tree, solid := true, treeHealth := some 3 }
    (by rw [floor_zero_div]; rfl) rfl rfl
  refine ⟨h.1.1, h.1.2.2.2.2.1, ?_⟩
  have h6 := h.1.2.2.2.2.2
  rw [floor_zero_div] at h6
  exact h6

/-- C4 (amended): only PlantedDirt tiles — carrying the planted flag and
a defined growth, as `plantSeed` produces — are dried out by the sweep:
when such a tile is watered and strictly more than 5000 ms have passed
since its truthy `lastWatered`, the next `updateCrops` tick clears
`watered` regardless of the growth value, and does not reset `growth`
(the tick's clamped increment still applies). TilledDirt tiles, though
waterable, are never dried out (see the counterexample). -/
theorem C4_dryout_planted_only (m : TileMap) (tileX tileY : ℤ) (t : Tile)
    (g w d now : ℚ)
    (hget : m.getTileAt tileX tileY = some t)
    (htype : t.type = TileType.PlantedDirt)
    (hp : jsBool t.planted = true) (hg : t.growth = some g)
    (hw : jsBool t.watered = true) (hlw : t.lastWatered = some w)
    (hw0 : w ≠ 0) (helapsed : 5000 < now - w) :
    (m.updateCrops d now).getTileAt tileX tileY =
      some { t with growth := some (min 1 (g + d * (1/10))),
                    watered := some false } := by
  rw [getTileAt_updateCrops, hget]
  simp only [Option.map_some']
  congr 1
  unfold updateTile
  rw [if_pos ⟨htype, hp, by rw [hg]; rfl⟩]
  rw [if_pos hw]
  rw [hg, hlw]
  simp only [Option.getD_some]
  rw [if_pos ⟨by simp [jsNum, hw0], helapsed⟩]

/-- A 1-by-1 map holding a watered unplanted TilledDirt tile, last
watered at time 1 ms. -/
def wateredTilledMap : TileMap :=
  ⟨[[{ type := TileType.TilledDirt, solid := false, tilled := some true,
       watered := some true, lastWatered := some 1 }]], 1, 1, 32⟩

/-- C4 counterexample: a watered TilledDirt tile is still `watered` after
a tick at time 100000 ms, about 100 s after its watering — the claim
says every waterable tile (TilledDirt included) is dried out after 5 s.
The dry-out check only runs inside the PlantedDirt branch. -/
theorem C4_counterexample :
    (wateredTilledMap.updateCrops 0 100000).getTileAt 0 0 =
      some { type := TileType.TilledDirt, solid := false, tilled := some true,
             watered := some true, lastWatered := some 1 } ∧
    (5000 : ℚ) < 100000 - 1 := by
  constructor
  · rfl
  · norm_num

/-- A 1-by-1 map holding a planted watered carrot at growth 1/2, last
watered at time 1 ms. -/
def plantedWateredMap : TileMap :=
  ⟨[[{ type := TileType.PlantedDirt, solid := false, tilled := some true,
       planted := some true, growth := some (1/2), watered := some true,
       lastWatered := some 1, cropType := some "carrot" }]], 1, 1, 32⟩

/-- C4 witness: the amended dry-out on a concrete planted tile, 5999 ms
after watering, with the growth increment applied and watered cleared. -/
theorem C4_dryout_witness :
    (plantedWateredMap.updateCrops 5 6000).getTileAt 0 0 =
      some { type := TileType.PlantedDirt, solid := false, tilled := some true,
             planted := some true,
             growth := some (min 1 (1/2 + 5 * (1/10))), watered := some false,
             lastWatered := some 1, cropType := some "carrot" } := by
  exact C4_dryout_planted_only plantedWateredMap 0 0
    { type := TileType.PlantedDirt, solid := false, tilled := some true,
      planted := some true, growth := some (1/2), watered := some true,
      lastWatered := some 1, cropType := some "carrot" }
    (1/2) 1 5 6000 rfl rfl rfl rfl rfl rfl (by norm_num) (by norm_num)

/-- C5 (amended): an unplanted TilledDirt tile with a truthy `tilledTime`
reverts to plain grass at an `updateCrops` tick exactly when STRICTLY
more than 30000 ms have elapsed since `tilledTime` — at exactly 30000 ms
elapsed it does not yet revert (see the counterexample). -/
theorem C5_tilled_reversion (m : TileMap) (tileX tileY : ℤ) (t : Tile)
    (tau d now : ℚ)
    (hget : m.getTileAt tileX tileY = some t)
    (htype : t.type = TileType.TilledDirt)
    (hp : jsBool t.planted = false)
    (ht : t.tilledTime = some tau) (htau : tau ≠ 0) :
    (m.updateCrops d now).getTileAt tileX tileY =
      some (if 30000 < now - tau then grassTile else t) := by
  rw [getTileAt_updateCrops, hget]
  simp only [Option.map_some']
  congr 1
  unfold updateTile
  rw [if_neg (by simp [htype])]
  rw [if_pos ⟨htype, by simp [hp]⟩]
  rw [ht]
  simp only [Option.getD_some]
  by_cases hlt : 30000 < now - tau
  · rw [if_pos ⟨by simp [jsNum, htau], hlt⟩, if_pos hlt]
  · rw [if_neg (fun hcon => hlt hcon.2), if_neg hlt]

/-- A 1-by-1 map holding an unplanted TilledDirt tile tilled at time 1 ms. -/
def tilledAtOneMap : TileMap :=
  ⟨[[{ type := TileType.TilledDirt, solid := false, tilled := some true,
       tilledTime := some 1 }]], 1, 1, 32⟩

/-- C5 counterexample: at the tick at time 30001 ms, exactly 30000 ms
(30 s) have elapsed since `tilledTime = 1`, yet the tile does NOT revert
— the claim says it reverts at the first tick with at least 30 s
elapsed. The code requires strictly more than 30000 ms. -/
theorem C5_counterexample :
    (tilledAtOneMap.updateCrops 0 30001).getTileAt 0 0 =
      some { type := TileType.TilledDirt, solid := false, tilled := some true,
             tilledTime := some 1 } ∧
    (30 : ℚ) * 1000 ≤ 30001 - 1 := by
  constructor
  · rw [getTileAt_updateCrops]
    rw [show tilledAtOneMap.getTileAt 0 0 =
        some { type := TileType.TilledDirt, solid := false, tilled := some true,
               tilledTime := some 1 } from rfl]
    simp only [Option.map_some']
    congr 1
    unfold updateTile
    rw [if_neg (by simp)]
    rw [if_pos ⟨rfl, by simp [jsBool]⟩]
    have hc : ¬ (jsNum ({ type := TileType.TilledDirt, solid := false, tilled := some true, tilledTime := some 1 } : Tile).tilledTime = true ∧
        30000 < (30001:ℚ) - ({ type := TileType.TilledDirt, solid := false, tilled := some true, tilledTime := some 1 } : Tile).tilledTime.getD 0) := by
      rintro ⟨-, hlt⟩
      simp only [Option.getD_some] at hlt
      norm_num at hlt
    rw [if_neg hc]
  · norm_num

/-- C5 witness: one tick past the strict threshold (30002 ms, elapsed
30001 ms) the same tile does revert to grass, and at 25000 ms elapsed it
does not. -/
theorem C5_tilled_reversion_witness :
    (tilledAtOneMap.updateCrops 0 30002).getTileAt 0 0 = some grassTile ∧
    (tilledAtOneMap.updateCrops 0 25001).getTileAt 0 0 =
      some { type := TileType.TilledDirt, solid := false, tilled := some true,
             tilledTime := some 1 } := by
  constructor
  · have h := C5_tilled_reversion tilledAtOneMap 0 0
      { type := TileType.TilledDirt, solid := false, tilled := some true,
        tilledTime := some 1 }
      1 0 30002 rfl rfl rfl rfl (by norm_num)
    rw [h, if_pos (by norm_num)]
  · have h := C5_tilled_reversion tilledAtOneMap 0 0
      { type := TileType.TilledDirt, solid := false, tilled := some true,
        tilledTime := some 1 }
      1 0 25001 rfl rfl rfl rfl (by norm_num)
    rw [h, if_neg (by norm_num)]

/-- C9: whenever `chopTree` reports "felled" (true), the cell has become
exactly `grassTile` — plain Grass with `solid = false`; there is no
stump variant in this TileMap's enum at all. The felled cell is
immediately tillable (`tillTile` succeeds on it at the same coordinates)
and no longer blocks movement (`isSolid` is false there). -/
theorem C9_felled_tree_grass (m : TileMap) (x y now : ℚ) (t : Tile)
    (hget : m.getTileAt ⌊x / m.tileSize⌋ ⌊y / m.tileSize⌋ = some t)
    (hfell : (m.chopTree x y).2 = true) :
    (m.chopTree x y).1.getTileAt ⌊x / m.tileSize⌋ ⌊y / m.tileSize⌋ =
      some grassTile ∧
    grassTile.type = TileType.Grass ∧ grassTile.solid = false ∧
    ((m.chopTree x y).1.tillTile x y now).2 = true ∧
    (m.chopTree x y).1.isSolid x y = false := by
  have hfelleq : m.chopTree x y =
      ({ m with tiles := setCell m.tiles (Int.toNat ⌊x / m.tileSize⌋) (Int.toNat ⌊y / m.tileSize⌋) grassTile }, true) := by
    by_cases htype : t.type = TileType.Tree
    · by_cases hc : jsNum t.treeHealth = true ∧ 1 < t.treeHealth.getD 0
      · exfalso
        have hfalse : (m.chopTree x y).2 = false := by
          simp only [TileMap.chopTree, hget, if_pos htype, if_pos hc]
        rw [hfalse] at hfell
        simp at hfell
      · exact chopTree_fell hget htype hc
    · exfalso
      have hnoop := chopTree_nonTree hget htype
      rw [hnoop] at hfell
      simp at hfell
  have hget2 := getTileAt_setCell hget grassTile
  refine ⟨?_, rfl, rfl, ?_, ?_⟩
  · simp only [hfelleq]
    exact hget2
  · simp only [hfelleq]
    simp only [TileMap.tillTile, hget2]
    simp [grassTile]
  · simp only [hfelleq]
    simp only [TileMap.isSolid, TileMap.getTile, hget2]
    simp [grassTile]

/-- C9 witness: felling the last-hit tree on a concrete map yields plain
grass that tills successfully and is not solid. -/
theorem C9_felled_tree_grass_witness :
    ((TileMap.mk [[{ type := TileType.Tree, solid := true, treeHealth := some 1 }]] 1 1 32).chopTree 0 0).1.getTileAt 0 0 = some grassTile ∧
    (((TileMap.mk [[{ type := TileType.Tree, solid := true, treeHealth := some 1 }]] 1 1 32).chopTree 0 0).1.tillTile 0 0 7).2 = true ∧
    ((TileMap.mk [[{ type := TileType.Tree, solid := true, treeHealth := some 1 }]] 1 1 32).chopTree 0 0).1.isSolid 0 0 = false := by
  have hget : (TileMap.mk [[{ type := TileType.Tree, solid := true, treeHealth := some 1 }]] 1 1 32).getTileAt
      ⌊(0:ℚ) / (TileMap.mk [[{ type := TileType.Tree, solid := true, treeHealth := some 1 }]] 1 1 32).tileSize⌋
      ⌊(0:ℚ) / (TileMap.mk [[{ type := TileType.Tree, solid := true, treeHealth := some 1 }]] 1 1 32).tileSize⌋ =
      some { type := TileType.Tree, solid := true, treeHealth := some 1 } := by
    rw [floor_zero_div]; rfl
  have hfell : ((TileMap.mk [[{ type := TileType.Tree, solid := true, treeHealth := some 1 }]] 1 1 32).chopTree 0 0).2 = true := by
    have h := chopTree_fell hget rfl
      (by rintro ⟨-, hlt⟩; simp only [Option.getD_some] at hlt; norm_num at hlt)
    rw [h]
  have h := C9_felled_tree_grass (TileMap.mk [[{ type := TileType.Tree, solid := true, treeHealth := some 1 }]] 1 1 32)
    0 0 7 { type := TileType.Tree, solid := true, treeHealth := some 1 } hget hfell
  refine ⟨?_, h.2.2.2.1, h.2.2.2.2⟩
  have h1 := h.1
  rw [floor_zero_div] at h1
  exact h1

/-- C10: a successful harvest leaves a TilledDirt cell whose `tilledTime`
is undefined, so no sequence of later `updateCrops` ticks — at any times
and deltas — ever reverts it: it stays exactly `harvestedTile` until some
other operation touches it. -/
theorem C10_harvested_never_reverts (m : TileMap) (x y : ℚ) (c : String)
    (hsucc : (m.harvestCrop x y).2 = some c) (upds : List (ℚ × ℚ)) :
    harvestedTile.tilledTime = none ∧
    (upds.foldl (fun mm dn => mm.updateCrops dn.1 dn.2)
      (m.harvestCrop x y).1).getTileAt ⌊x / m.tileSize⌋ ⌊y / m.tileSize⌋ =
      some harvestedTile := by
  have hcell : (m.harvestCrop x y).1.getTileAt ⌊x / m.tileSize⌋ ⌊y / m.tileSize⌋ =
      some harvestedTile := by
    cases hget : m.getTileAt ⌊x / m.tileSize⌋ ⌊y / m.tileSize⌋ with
    | none =>
      have : m.harvestCrop x y = (m, none) := by
        simp only [TileMap.harvestCrop, hget]
      rw [this] at hsucc
      simp at hsucc
    | some t =>
      by_cases hc : jsNum t.growth = true ∧ 1 ≤ t.growth.getD 0 ∧
          t.type = TileType.PlantedDirt
      · have heq : m.harvestCrop x y =
            ({ m with tiles := setCell m.tiles (Int.toNat ⌊x / m.tileSize⌋) (Int.toNat ⌊y / m.tileSize⌋) harvestedTile },
             some (cropTypeOrCarrot t.cropType)) := by
          simp only [TileMap.harvestCrop, hget, if_pos hc]
        simp only [heq]
        exact getTileAt_setCell hget harvestedTile
      · have heq := harvestCrop_not_ripe hget hc
        rw [heq] at hsucc
        simp at hsucc
  have hstep : ∀ (mm : TileMap) (d n : ℚ),
      mm.getTileAt ⌊x / m.tileSize⌋ ⌊y / m.tileSize⌋ = some harvestedTile →
      (mm.updateCrops d n).getTileAt ⌊x / m.tileSize⌋ ⌊y / m.tileSize⌋ =
        some harvestedTile := by
    intro mm d n hm
    rw [getTileAt_updateCrops, hm]
    rfl
  have haux : ∀ (ups : List (ℚ × ℚ)) (mm : TileMap),
      mm.getTileAt ⌊x / m.tileSize⌋ ⌊y / m.tileSize⌋ = some harvestedTile →
      (ups.foldl (fun acc dn => acc.updateCrops dn.1 dn.2) mm).getTileAt
        ⌊x / m.tileSize⌋ ⌊y / m.tileSize⌋ = some harvestedTile := by
    intro ups
    induction ups with
    | nil => intro mm hm; exact hm
    | cons p rest ih =>
      intro mm hm
      exact ih (mm.updateCrops p.1 p.2) (hstep mm p.1 p.2 hm)
  exact ⟨rfl, haux upds (m.harvestCrop x y).1 hcell⟩

/-- C10 witness: after harvesting the ripe carrot, two further ticks —
one at 10 s, one at 1000 s — leave the cell exactly `harvestedTile`. -/
theorem C10_harvested_never_reverts_witness :
    (([((5:ℚ), (10000:ℚ)), (0, 1000000)]).foldl
      (fun mm dn => mm.updateCrops dn.1 dn.2)
      (ripeCarrotMap.harvestCrop 0 0).1).getTileAt 0 0 = some harvestedTile ∧
    harvestedTile.tilledTime = none := by
  have hget : ripeCarrotMap.getTileAt ⌊(0:ℚ) / ripeCarrotMap.tileSize⌋
      ⌊(0:ℚ) / ripeCarrotMap.tileSize⌋ =
      some { type := TileType.PlantedDirt, solid := false, tilled := some true,
             planted := some true, growth := some 1, watered := some false,
             cropType := some "carrot" } := by
    rw [floor_zero_div]; rfl
  have hs := harvestCrop_success hget rfl rfl (le_refl 1)
  have hsucc : (ripeCarrotMap.harvestCrop 0 0).2 = some "carrot" := by
    rw [hs]; rfl
  have h := C10_harvested_never_reverts ripeCarrotMap 0 0 "carrot" hsucc
    [(5, 10000), (0, 1000000)]
  refine ⟨?_, h.1⟩
  have h2 := h.2
  rw [floor_zero_div] at h2
  exact h2

/-- C8: on a well-shaped grid, a world coordinate whose floor-divided
tile index falls outside the bounds gets the null sentinel from
`getTile` and counts as solid; an in-bounds coordinate resolves to a
stored tile and `isSolid` returns that tile's `solid` flag. -/
theorem C8_bounds_spec (m : TileMap) (x y : ℚ) (hwf : m.wellFormed) :
    ((⌊x / m.tileSize⌋ < 0 ∨ m.width ≤ ⌊x / m.tileSize⌋ ∨
      ⌊y / m.tileSize⌋ < 0 ∨ m.height ≤ ⌊y / m.tileSize⌋) →
      m.getTile x y = none ∧ m.isSolid x y = true) ∧
    (¬ (⌊x / m.tileSize⌋ < 0 ∨ m.width ≤ ⌊x / m.tileSize⌋ ∨
      ⌊y / m.tileSize⌋ < 0 ∨ m.height ≤ ⌊y / m.tileSize⌋) →
      ∃ t, m.getTile x y = some t ∧ m.isSolid x y = t.solid) := by
  constructor
  · intro hout
    have hnone : m.getTile x y = none := by
      unfold TileMap.getTile TileMap.getTileAt
      rw [if_pos hout]
    refine ⟨hnone, ?_⟩
    unfold TileMap.isSolid
    rw [hnone]
  · intro hin
    have hin2 := hin
    push_neg at hin2
    obtain ⟨hx0, hxw, hy0, hyh⟩ := hin2
    have hylen : (⌊y / m.tileSize⌋).toNat < m.tiles.length := by
      rw [hwf.1]; omega
    obtain ⟨row, hrow⟩ : ∃ row, m.tiles.get? (⌊y / m.tileSize⌋).toNat = some row :=
      ⟨_, List.get?_eq_get hylen⟩
    have hxlen : (⌊x / m.tileSize⌋).toNat < row.length := by
      rw [hwf.2 row (List.get?_mem hrow)]; omega
    obtain ⟨t, ht⟩ : ∃ t, row.get? (⌊x / m.tileSize⌋).toNat = some t :=
      ⟨_, List.get?_eq_get hxlen⟩
    have hsome : m.getTile x y = some t := by
      unfold TileMap.getTile TileMap.getTileAt
      rw [if_neg hin, hrow]
      simpa using ht
    refine ⟨t, hsome, ?_⟩
    unfold TileMap.isSolid
    rw [hsome]

/-- A 1-by-1 all-grass map with the default tile size. -/
def oneGrassMap : TileMap := ⟨[[grassTile]], 1, 1, 32⟩

/-- C8 witness: on the 1-by-1 grass map, the coordinate -32 resolves to
tile index -1 and behaves as a solid wall, while coordinate 5 resolves
to the stored grass tile and is not solid. -/
theorem C8_bounds_witness :
    oneGrassMap.getTile (-32) 0 = none ∧
    oneGrassMap.isSolid (-32) 0 = true ∧
    oneGrassMap.isSolid 5 5 = grassTile.solid := by
  have hwf : oneGrassMap.wellFormed := by
    constructor
    · rfl
    · intro row hrow
      simp only [oneGrassMap] at hrow
      simp at hrow
      rw [hrow]
      rfl
  have hfneg : ⌊(-32:ℚ) / oneGrassMap.tileSize⌋ = -1 := by
    norm_num [oneGrassMap]
  have hf5 : ⌊(5:ℚ) / oneGrassMap.tileSize⌋ = 0 := by
    rw [show oneGrassMap.tileSize = 32 from rfl]
    rw [Int.floor_eq_iff]
    all_goals norm_num
  have hout := (C8_bounds_spec oneGrassMap (-32) 0 hwf).1
    (by rw [hfneg, floor_zero_div]; left; norm_num)
  have hin := (C8_bounds_spec oneGrassMap 5 5 hwf).2
    (by rw [hf5]; norm_num [oneGrassMap])
  obtain ⟨t, ht1, ht2⟩ := hin
  have hteq : t = grassTile := by
    have hgt : oneGrassMap.getTile 5 5 = some grassTile := by
      unfold TileMap.getTile
      rw [hf5]
      rfl
    rw [hgt] at ht1
    exact (Option.some_inj.mp ht1.symm)
  exact ⟨hout.1, hout.2, hteq ▸ ht2⟩

/-- C3: starting from any map whose stored growth values lie in [0, 1]
(generation stores none at all), every sequence of operations with
non-negative tick deltas keeps every growth value in [0, 1]; moreover a
successful `plantSeed` initialises growth to exactly 0, and an
`updateCrops` tick leaves an unwatered PlantedDirt tile unchanged —
growth only advances while `watered` holds. -/
theorem C3_growth_in_range (m : TileMap) (ops : List Op)
    (hm : growthInv m) (hops : ∀ op ∈ ops, op.deltaOk = true) :
    growthInv (applyOps m ops) ∧
    (∀ (mm : TileMap) (x y : ℚ) (c : String) (t : Tile),
      mm.getTileAt ⌊x / mm.tileSize⌋ ⌊y / mm.tileSize⌋ = some t →
      (mm.plantSeed x y c).2 = true →
      (mm.plantSeed x y c).1.getTileAt ⌊x / mm.tileSize⌋ ⌊y / mm.tileSize⌋ =
        some { type := TileType.PlantedDirt, solid := false, tilled := some true, planted := some true, growth := some 0, watered := some false, cropType := some c }) ∧
    (∀ (tt : Tile) (d n : ℚ), tt.type = TileType.PlantedDirt →
      jsBool tt.watered = false → updateTile n d tt = tt) := by
  refine ⟨growthInv_applyOps hm hops, ?_, ?_⟩
  · intro mm x y c t hget hsucc
    by_cases hc : t.type = TileType.TilledDirt ∧ ¬ jsBool t.planted = true
    · have heq : mm.plantSeed x y c =
          ({ mm with tiles := setCell mm.tiles (Int.toNat ⌊x / mm.tileSize⌋) (Int.toNat ⌊y / mm.tileSize⌋) ({ type := TileType.PlantedDirt, solid := false, tilled := some true, planted := some true, growth := some 0, watered := some false, cropType := some c }) }, true) := by
        simp only [TileMap.plantSeed, hget]
        rw [if_pos hc]
      simp only [heq]
      exact getTileAt_setCell hget _
    · have heq : mm.plantSeed x y c = (mm, false) := by
        simp only [TileMap.plantSeed, hget]
        rw [if_neg hc]
      rw [heq] at hsucc
      simp at hsucc
  · intro tt d n htype hw
    unfold updateTile
    by_cases h1 : tt.type = TileType.PlantedDirt ∧ jsBool tt.planted = true ∧
        tt.growth.isSome = true
    · rw [if_pos h1, if_neg (by simp [hw])]
    · rw [if_neg h1, if_neg (by simp [htype])]

/-- A 1-by-1 map holding a freshly tilled cell. -/
def tilledStartMap : TileMap :=
  ⟨[[{ type := TileType.TilledDirt, solid := false, tilled := some true,
       tilledTime := some 1 }]], 1, 1, 32⟩

/-- C3 witness: plant, water and a 5-second tick on the concrete tilled
map keep the invariant, with the deltas non-negative. -/
theorem C3_growth_in_range_witness :
    growthInv tilledStartMap ∧
    (∀ op ∈ ([Op.plant 0 0 "carrot", Op.water 0 0 2, Op.update 5 6000] : List Op),
      op.deltaOk = true) ∧
    growthInv (applyOps tilledStartMap
      [Op.plant 0 0 "carrot", Op.water 0 0 2, Op.update 5 6000]) := by
  have hm : growthInv tilledStartMap := by
    intro row hrow t ht
    simp only [tilledStartMap] at hrow
    simp at hrow
    subst hrow
    simp at ht
    subst ht
    exact ⟨by simp, by simp⟩
  have hops : ∀ op ∈ ([Op.plant 0 0 "carrot", Op.water 0 0 2, Op.update 5 6000] : List Op),
      op.deltaOk = true := by
    intro op hop
    fin_cases hop <;> norm_num [Op.deltaOk]
  exact ⟨hm, hops, (C3_growth_in_range tilledStartMap _ hm hops).1⟩

/-- Generic fold facts used to evaluate degenerate world generation. -/
theorem foldl_id_of_id {α β : Type} (f : β → α → β) (hf : ∀ b a, f b a = b) :
    ∀ (l : List α) (b : β), l.foldl f b = b := by
  intro l
  induction l with
  | nil => intro b; rfl
  | cons a rest ih => intro b; rw [List.foldl_cons, hf, ih]

theorem foldl_fst_fixed {α : Type}
    (step : (List (List Tile) × Rng) → α → (List (List Tile) × Rng))
    (h : ∀ s a, (step s a).1 = s.1) :
    ∀ (l : List α) (s : List (List Tile) × Rng), (l.foldl step s).1 = s.1 := by
  intro l
  induction l with
  | nil => intro s; rfl
  | cons a rest ih => intro s; rw [List.foldl_cons, ih, h]

/-- On a non-positive width, the dirt-patch pass touches no tiles: every
candidate cell fails the `0 ≤ x ∧ x < width` bound. -/
theorem generateDirtPatches_fst_of_nonpos {width height : ℤ} (hw : width ≤ 0)
    (st : List (List Tile) × Rng) :
    (generateDirtPatches width height st).1 = st.1 := by
  unfold generateDirtPatches
  refine foldl_fst_fixed _ ?_ _ _
  intro s i
  simp only [Rng.next]
  refine foldl_id_of_id _ ?_ _ _
  intro ts dy
  refine foldl_id_of_id _ ?_ _ _
  intro ts2 dx
  split_ifs with h1 h2
  · exfalso
    obtain ⟨ha, hb, -, -⟩ := h2
    omega
  · rfl
  · rfl

/-- C6: the `TileMap` constructor performs NO validation of its
dimensions. Constructing with `width = 0, height = 5` silently succeeds
and yields a degenerate grid of 5 empty rows, on which every query
returns the null sentinel and `isSolid` reports solid everywhere —
construction never fails. -/
theorem C6_constructor_no_validation :
    (TileMap.create 0 5 32 (fun _ => 0) ⟨fun _ => 0, 0⟩).tiles =
      List.replicate 5 [] ∧
    (TileMap.create 0 5 32 (fun _ => 0) ⟨fun _ => 0, 0⟩).getTile 7 7 = none ∧
    (TileMap.create 0 5 32 (fun _ => 0) ⟨fun _ => 0, 0⟩).isSolid 7 7 = true := by
  have hsc : Int.toNat ⌊((0:ℤ):ℚ) * ((5:ℤ):ℚ) * (2/100)⌋ = 0 := by norm_num
  have htc : Int.toNat ⌊((0:ℤ):ℚ) * ((5:ℤ):ℚ) * (3/100)⌋ = 0 := by norm_num
  have hstones : generateStones 0 5 (List.replicate 5 [], ⟨fun _ => 0, 0⟩) =
      (List.replicate 5 [], ⟨fun _ => 0, 0⟩) := by
    simp only [generateStones]
    rw [hsc]
    rfl
  have hdirt : (generateDirtPatches 0 5 (List.replicate 5 [], ⟨fun _ => 0, 0⟩)).1 =
      List.replicate 5 [] :=
    generateDirtPatches_fst_of_nonpos (by norm_num) _
  have htrees : ∀ rng : Rng,
      generateTrees 0 5 ((generateDirtPatches 0 5 (List.replicate 5 [], ⟨fun _ => 0, 0⟩)).1, rng) =
      ((generateDirtPatches 0 5 (List.replicate 5 [], ⟨fun _ => 0, 0⟩)).1, rng) := by
    intro rng
    simp only [generateTrees]
    rw [htc]
    rfl
  have htiles : (TileMap.create 0 5 32 (fun _ => 0) ⟨fun _ => 0, 0⟩).tiles =
      List.replicate 5 [] := by
    show (generateTrees 0 5 (generateDirtPatches 0 5 (generateStones 0 5
      (generateRiver (fun _ => 0) 0 5 (List.replicate (Int.toNat 5) (List.replicate (Int.toNat 0) grassTile)),
       ⟨fun _ => 0, 0⟩)))).1 = List.replicate 5 []
    have hinit : generateRiver (fun _ => 0) 0 5
        (List.replicate (Int.toNat 5) (List.replicate (Int.toNat 0) grassTile)) =
        List.replicate 5 [] := rfl
    rw [hinit, hstones]
    have hpair : (generateDirtPatches 0 5 (List.replicate 5 [], ⟨fun _ => 0, 0⟩)) =
        ((generateDirtPatches 0 5 (List.replicate 5 [], ⟨fun _ => 0, 0⟩)).1,
         (generateDirtPatches 0 5 (List.replicate 5 [], ⟨fun _ => 0, 0⟩)).2) := rfl
    rw [hpair, htrees]
    exact hdirt
  have hf7 : ⌊(7:ℚ) / (TileMap.create 0 5 32 (fun _ => 0) ⟨fun _ => 0, 0⟩).tileSize⌋ = 0 := by
    rw [show (TileMap.create 0 5 32 (fun _ => 0) ⟨fun _ => 0, 0⟩).tileSize = 32 from rfl]
    rw [Int.floor_eq_iff]
    all_goals norm_num
  have hnone : (TileMap.create 0 5 32 (fun _ => 0) ⟨fun _ => 0, 0⟩).getTile 7 7 = none := by
    unfold TileMap.getTile TileMap.getTileAt
    rw [hf7]
    have hcond : (0:ℤ) < 0 ∨
        (TileMap.create 0 5 32 (fun _ => 0) ⟨fun _ => 0, 0⟩).width ≤ 0 ∨
        (0:ℤ) < 0 ∨
        (TileMap.create 0 5 32 (fun _ => 0) ⟨fun _ => 0, 0⟩).height ≤ 0 :=
      Or.inr (Or.inl (le_refl 0))
    rw [if_pos hcond]
  refine ⟨htiles, hnone, ?_⟩
  unfold TileMap.isSolid
  rw [hnone]

/-! Machinery for the drop registry (claim C7). -/

/-- The registry's structural invariant, maintained by every operation:
keys are distinct, each record carries its own key as `id`, and every
key is below the monotone `nextId` counter. -/
def ItemDropManager.wf (mgr : ItemDropManager) : Prop :=
  (mgr.drops.map Prod.fst).Nodup ∧
  (∀ p ∈ mgr.drops, p.2.id = p.1) ∧
  (∀ p ∈ mgr.drops, p.1 < mgr.nextId)

instance (mgr : ItemDropManager) : Decidable mgr.wf := by
  unfold ItemDropManager.wf; infer_instance

theorem filter_map_snd (l : List (ℕ × ItemDrop)) (p : ItemDrop → Bool) :
    (l.filter (fun q => p q.2)).map Prod.snd = (l.map Prod.snd).filter p := by
  induction l with
  | nil => rfl
  | cons a rest ih =>
    by_cases h : p a.2
    · simp [List.filter_cons, h, ih]
    · simp [List.filter_cons, h, ih]

theorem eq_of_fst_eq_of_nodup {l : List (ℕ × ItemDrop)}
    (h : (l.map Prod.fst).Nodup) {p q : ℕ × ItemDrop}
    (hp : p ∈ l) (hq : q ∈ l) (he : p.1 = q.1) : p = q := by
  induction l with
  | nil => cases hp
  | cons a rest ih =>
    have hhead : a.1 ∉ rest.map Prod.fst := (List.nodup_cons.mp (by simpa using h)).1
    rcases List.mem_cons.mp hp with rfl | hp2
    · rcases List.mem_cons.mp hq with rfl | hq2
      · rfl
      · exact absurd (he ▸ List.mem_map_of_mem Prod.fst hq2) hhead
    · rcases List.mem_cons.mp hq with rfl | hq2
      · exact absurd (he ▸ List.mem_map_of_mem Prod.fst hp2) hhead
      · exact ih (List.nodup_cons.mp (by simpa using h)).2 hp2 hq2

/-- A key that is absent from the registry and below the counter stays
absent through any operation: `nextId` never decreases and only grows
past fresh keys. -/
def keyAbsent (i : ℕ) (mgr : ItemDropManager) : Prop :=
  (∀ p ∈ mgr.drops, p.1 ≠ i) ∧ i < mgr.nextId

theorem keyAbsent_applyDropOp {i : ℕ} {mgr : ItemDropManager}
    (h : keyAbsent i mgr) (op : DropOp) : keyAbsent i (applyDropOp mgr op) := by
  obtain ⟨h1, h2⟩ := h
  cases op with
  | create x y it q ph =>
    constructor
    · intro p hp
      unfold applyDropOp ItemDropManager.createDrop at hp
      rcases List.mem_append.mp hp with hp2 | hp2
      · exact h1 p hp2
      · have : p = (mgr.nextId, _) := List.mem_singleton.mp hp2
        rw [this]
        intro hcon
        omega
    · show i < mgr.nextId + 1
      omega
  | tick d s =>
    constructor
    · intro p hp
      unfold applyDropOp ItemDropManager.update at hp
      rcases List.mem_map.mp hp with ⟨q, hq, rfl⟩
      exact h1 q hq
    · exact h2
  | pickup px py r =>
    constructor
    · intro p hp
      unfold applyDropOp ItemDropManager.checkPickup at hp
      exact h1 p (List.mem_filter.mp hp).1
    · exact h2

theorem keyAbsent_applyDropOps {i : ℕ} {mgr : ItemDropManager}
    (h : keyAbsent i mgr) (ops : List DropOp) :
    keyAbsent i (applyDropOps mgr ops) := by
  induction ops generalizing mgr with
  | nil => exact h
  | cons op rest ih => exact ih (keyAbsent_applyDropOp h op)

theorem wf_applyDropOp {mgr : ItemDropManager} (h : mgr.wf) (op : DropOp) :
    (applyDropOp mgr op).wf := by
  obtain ⟨h1, h2, h3⟩ := h
  cases op with
  | create x y it q ph =>
    refine ⟨?_, ?_, ?_⟩
    · unfold applyDropOp ItemDropManager.createDrop
      simp only [List.map_append, List.map_cons, List.map_nil]
      rw [List.nodup_append]
      refine ⟨h1, List.nodup_singleton _, ?_⟩
      intro k hk hk2
      rcases List.mem_map.mp hk with ⟨p, hp, rfl⟩
      have := h3 p hp
      have : p.1 ≠ mgr.nextId := by omega
      exact this (List.mem_singleton.mp hk2)
    · intro p hp
      unfold applyDropOp ItemDropManager.createDrop at hp
      rcases List.mem_append.mp hp with hp2 | hp2
      · exact h2 p hp2
      · rw [List.mem_singleton.mp hp2]
    · intro p hp
      unfold applyDropOp ItemDropManager.createDrop at hp ⊢
      rcases List.mem_append.mp hp with hp2 | hp2
      · have := h3 p hp2
        show p.1 < mgr.nextId + 1
        omega
      · rw [List.mem_singleton.mp hp2]
        show mgr.nextId < mgr.nextId + 1
        omega
  | tick d s =>
    refine ⟨?_, ?_, ?_⟩
    · unfold applyDropOp ItemDropManager.update
      have hkeys : ∀ l : List (ℕ × ItemDrop),
          (l.map (fun p => (p.1, { p.2 with bobTime := p.2.bobTime + d * 3, bobOffset := s (p.2.bobTime + d * 3) * 2 }))).map Prod.fst = l.map Prod.fst := by
        intro l
        induction l with
        | nil => rfl
        | cons a rest ih => simp only [List.map_cons, ih]
      rw [hkeys]
      exact h1
    · intro p hp
      unfold applyDropOp ItemDropManager.update at hp
      rcases List.mem_map.mp hp with ⟨q, hq, rfl⟩
      exact h2 q hq
    · intro p hp
      unfold applyDropOp ItemDropManager.update at hp ⊢
      rcases List.mem_map.mp hp with ⟨q, hq, rfl⟩
      exact h3 q hq
  | pickup px py r =>
    refine ⟨?_, ?_, ?_⟩
    · unfold applyDropOp ItemDropManager.checkPickup
      exact List.Nodup.sublist ((List.filter_sublist _).map _) h1
    · intro p hp
      unfold applyDropOp ItemDropManager.checkPickup at hp
      exact h2 p (List.mem_filter.mp hp).1
    · intro p hp
      unfold applyDropOp ItemDropManager.checkPickup at hp ⊢
      exact h3 p (List.mem_filter.mp hp).1

theorem wf_applyDropOps {mgr : ItemDropManager} (h : mgr.wf)
    (ops : List DropOp) : (applyDropOps mgr ops).wf := by
  induction ops generalizing mgr with
  | nil => exact h
  | cons op rest ih => exact ih (wf_applyDropOp h op)

/-- Every drop in a pickup batch came from the registry and carries a
then-registered key. -/
theorem batch_mem {mgr : ItemDropManager} {px py r : ℚ} {d : ItemDrop}
    (hd : d ∈ (mgr.checkPickup px py r).1) :
    ∃ q ∈ mgr.drops, q.2 = d ∧
      ItemDropManager.closeHit px py r d = true := by
  unfold ItemDropManager.checkPickup at hd
  rcases List.mem_map.mp hd with ⟨q, hq, rfl⟩
  have hq2 := List.mem_filter.mp hq
  exact ⟨q, hq2.1, rfl, hq2.2⟩

/-- C7: on a well-formed registry, `checkPickup` returns exactly the
drops whose squared distance to the actor is strictly below the squared
radius (in registry order), removes every returned drop's key from the
registry in the same call, and no later `checkPickup` — after any
sequence of further creates, updates and pickups — ever returns a drop
with the same id again. -/
theorem C7_checkPickup_spec (mgr : ItemDropManager) (px py r : ℚ)
    (hwf : mgr.wf) :
    ((mgr.checkPickup px py r).1 =
      (mgr.drops.map Prod.snd).filter (ItemDropManager.closeHit px py r)) ∧
    (∀ d ∈ (mgr.checkPickup px py r).1,
      ∀ p ∈ (mgr.checkPickup px py r).2.drops, p.1 ≠ d.id) ∧
    (∀ d ∈ (mgr.checkPickup px py r).1, ∀ (ops : List DropOp) (px2 py2 r2 : ℚ),
      ∀ d2 ∈ ((applyDropOps (mgr.checkPickup px py r).2 ops).checkPickup
        px2 py2 r2).1, d2.id ≠ d.id) := by
  have hbatch : (mgr.checkPickup px py r).1 =
      (mgr.drops.map Prod.snd).filter (ItemDropManager.closeHit px py r) :=
    filter_map_snd mgr.drops (ItemDropManager.closeHit px py r)
  have hremoved : ∀ d ∈ (mgr.checkPickup px py r).1,
      ∀ p ∈ (mgr.checkPickup px py r).2.drops, p.1 ≠ d.id := by
    intro d hd p hp
    rcases batch_mem hd with ⟨q, hq, rfl, hhit⟩
    have hp2 : p ∈ mgr.drops ∧ ¬ ItemDropManager.closeHit px py r p.2 = true := by
      unfold ItemDropManager.checkPickup at hp
      have := List.mem_filter.mp hp
      exact ⟨this.1, by simpa using this.2⟩
    intro hcon
    have hqid : q.2.id = q.1 := hwf.2.1 q hq
    have hpq : p = q := eq_of_fst_eq_of_nodup hwf.1 hp2.1 hq (by rw [hcon, hqid])
    rw [hpq] at hp2
    exact hp2.2 hhit
  refine ⟨hbatch, hremoved, ?_⟩
  intro d hd ops px2 py2 r2 d2 hd2
  rcases batch_mem hd with ⟨q, hq, rfl, hhit⟩
  have habsent : keyAbsent q.2.id (mgr.checkPickup px py r).2 := by
    constructor
    · exact fun p hp => hremoved q.2 hd p hp
    · have : q.1 < mgr.nextId := hwf.2.2 q hq
      have hqid : q.2.id = q.1 := hwf.2.1 q hq
      show q.2.id < (mgr.checkPickup px py r).2.nextId
      have hred : (mgr.checkPickup px py r).2.nextId = mgr.nextId := rfl
      omega
  have habsent2 := keyAbsent_applyDropOps habsent ops
  have hwf2 : (applyDropOps (mgr.checkPickup px py r).2 ops).wf := by
    have hwfp : (mgr.checkPickup px py r).2.wf :=
      wf_applyDropOp hwf (DropOp.pickup px py r)
    exact wf_applyDropOps hwfp ops
  rcases batch_mem hd2 with ⟨q2, hq2, rfl, hhit2⟩
  have hq2id : q2.2.id = q2.1 := hwf2.2.1 q2 hq2
  rw [hq2id]
  exact habsent2.1 q2 hq2

/-- A registry holding a wood drop at (10, 10) and a stone drop at
(100, 100), keys 1 and 2, counter 3. -/
def twoDropsMgr : ItemDropManager :=
  ⟨[(1, ⟨1, ⟨10, 10⟩, "wood", 1, 0, 0⟩), (2, ⟨2, ⟨100, 100⟩, "stone", 1, 0, 0⟩)], 3⟩

/-- C7 witness: an actor at the origin with radius 24 picks up exactly
the wood drop (distance about 14.1) and its key is gone from the
registry afterwards. -/
theorem C7_checkPickup_witness :
    twoDropsMgr.wf ∧
    (twoDropsMgr.checkPickup 0 0 24).1 = [⟨1, ⟨10, 10⟩, "wood", 1, 0, 0⟩] ∧
    (∀ p ∈ (twoDropsMgr.checkPickup 0 0 24).2.drops, p.1 ≠ 1) := by
  have hwf : twoDropsMgr.wf := by decide
  have h := C7_checkPickup_spec twoDropsMgr 0 0 24 hwf
  have hit1 : ItemDropManager.closeHit 0 0 24 ⟨1, ⟨10, 10⟩, "wood", 1, 0, 0⟩ = true := by
    simp only [ItemDropManager.closeHit]
    norm_num
  have hit2 : ItemDropManager.closeHit 0 0 24 ⟨2, ⟨100, 100⟩, "stone", 1, 0, 0⟩ = false := by
    simp only [ItemDropManager.closeHit]
    norm_num
  have hb : (twoDropsMgr.checkPickup 0 0 24).1 = [⟨1, ⟨10, 10⟩, "wood", 1, 0, 0⟩] := by
    rw [h.1]
    show List.filter _ [(⟨1, ⟨10, 10⟩, "wood", 1, 0, 0⟩ : ItemDrop), ⟨2, ⟨100, 100⟩, "stone", 1, 0, 0⟩] = _
    rw [List.filter_cons, List.filter_cons]
    simp [hit1, hit2]
  refine ⟨hwf, hb, ?_⟩
  intro p hp
  have := h.2.1 ⟨1, ⟨10, 10⟩, "wood", 1, 0, 0⟩ (by rw [hb]; exact List.mem_singleton.mpr rfl) p hp
  simpa using this

end Farm
